import Mathlib

/-!
Verification of the porture TCP/UDP port forwarder (src/main.rs,
src/config.rs, src/tcp_forwarder.rs, src/udp_forwarder.rs).

The Rust code is shallowly embedded: pure functions become Lean functions,
the event loops become functions over finite lists of I/O events, the
tokio `RwLock`-guarded session `HashMap` becomes an association list whose
lock-protected critical sections are single atomic steps, `Instant` becomes
a natural-number timestamp (`Instant::duration_since` saturates at zero,
matching truncated `Nat` subtraction), and `anyhow::Result` / fallible
socket operations become `Option` / explicit result parameters.
-/

/-! ## Addresses (model of `std::net::IpAddr` / `SocketAddr`)

`IpAddr::from_str` is std-library code.  We model its behaviour on IPv4
dotted-quad literals (four `.`-separated decimal octets, each 0–255,
no leading zeros, no empty or non-digit component); every concrete
address appearing in the repository's configuration is such a literal.
-/

/-- One IPv4 address as four octets. -/
structure Ipv4 where
  a : Nat
  b : Nat
  c : Nat
  d : Nat
deriving DecidableEq, Repr

/-- Splits a character list on the dot separator, keeping empty components. -/
def splitOnDot : List Char → List (List Char)
  | [] => [[]]
  | ch :: rest =>
    let tail := splitOnDot rest
    if ch = '.' then [] :: tail
    else match tail with
      | [] => [[ch]]
      | grp :: grps => (ch :: grp) :: grps

/-- Decimal value of a digit list (assumes all digits). -/
def digitsToNat (cs : List Char) : Nat :=
  cs.foldl (fun acc ch => acc * 10 + (ch.toNat - 48)) 0

/-- Parses one decimal octet: nonempty, all digits, no leading zero
(unless the single digit 0), value at most 255. -/
def parseOctet (cs : List Char) : Option Nat :=
  if cs = [] then none
  else if ¬ cs.all Char.isDigit then none
  else if cs.length > 1 ∧ cs.head? = some '0' then none
  else
    let v := digitsToNat cs
    if v ≤ 255 then some v else none

/-- Model of `IpAddr::from_str` restricted to IPv4 dotted-quad literals. -/
def parseIpAddr (s : String) : Option Ipv4 :=
  match splitOnDot s.data with
  | [w, x, y, z] =>
    match parseOctet w, parseOctet x, parseOctet y, parseOctet z with
    | some a, some b, some c, some d => some ⟨a, b, c, d⟩
    | _, _, _, _ => none
  | _ => none

/-- `std::net::SocketAddr`: an IP address paired with a port. -/
structure SocketAddr where
  ip : Ipv4
  port : Nat
deriving DecidableEq, Repr

/-! ## Rules and configuration (src/config.rs) -/

/-- `TcpRule` from src/config.rs: string addresses plus ports. -/
structure TcpRule where
  bind_addr : String
  bind_port : Nat
  target_addr : String
  target_port : Nat
  name : Option String
deriving DecidableEq, Repr

/-- `UdpRule` from src/config.rs: like `TcpRule` plus an optional
idle timeout in seconds. -/
structure UdpRule where
  bind_addr : String
  bind_port : Nat
  target_addr : String
  target_port : Nat
  name : Option String
  timeout_opt : Option Nat
deriving DecidableEq, Repr

/-- `TcpRule::bind_socket_addr`: parse the bind IP and pair with the port.
`none` models the `anyhow::Result` error. -/
def TcpRule.bind_socket_addr (r : TcpRule) : Option SocketAddr :=
  (parseIpAddr r.bind_addr).map (fun ip => ⟨ip, r.bind_port⟩)

/-- `TcpRule::target_socket_addr`. -/
def TcpRule.target_socket_addr (r : TcpRule) : Option SocketAddr :=
  (parseIpAddr r.target_addr).map (fun ip => ⟨ip, r.target_port⟩)

/-- `TcpRule::validate`: both addresses must parse. -/
def TcpRule.validate (r : TcpRule) : Option Unit := do
  let _ ← r.bind_socket_addr
  let _ ← r.target_socket_addr
  pure ()

/-- `UdpRule::bind_socket_addr`. -/
def UdpRule.bind_socket_addr (r : UdpRule) : Option SocketAddr :=
  (parseIpAddr r.bind_addr).map (fun ip => ⟨ip, r.bind_port⟩)

/-- `UdpRule::target_socket_addr`. -/
def UdpRule.target_socket_addr (r : UdpRule) : Option SocketAddr :=
  (parseIpAddr r.target_addr).map (fun ip => ⟨ip, r.target_port⟩)

/-- `UdpRule::validate`: both addresses must parse. -/
def UdpRule.validate (r : UdpRule) : Option Unit := do
  let _ ← r.bind_socket_addr
  let _ ← r.target_socket_addr
  pure ()

/-- `UdpRule::timeout_seconds`: the configured timeout, defaulting to 30. -/
def UdpRule.timeout_seconds (r : UdpRule) : Nat :=
  r.timeout_opt.getD 30

/-- `Config` from src/config.rs (the `global` section is consumed only for
`buffer_size` and logging, which the claims do not touch beyond defaults). -/
structure Config where
  tcp : Option (List TcpRule)
  udp : Option (List UdpRule)
deriving Repr

/-- The `for rule in tcp_rules { rule.validate()? }` loop of
`Config::validate`: stops at the first invalid rule. -/
def validateTcpRules : List TcpRule → Option Unit
  | [] => some ()
  | r :: rs =>
    match r.validate with
    | some _ => validateTcpRules rs
    | none => none

/-- The corresponding loop over the UDP rules. -/
def validateUdpRules : List UdpRule → Option Unit
  | [] => some ()
  | r :: rs =>
    match r.validate with
    | some _ => validateUdpRules rs
    | none => none

/-- `Config::validate`: every TCP rule, then every UDP rule, must validate. -/
def Config.validate (c : Config) : Option Unit := do
  let _ ← validateTcpRules (c.tcp.getD [])
  let _ ← validateUdpRules (c.udp.getD [])
  pure ()

/-- Outcome of the startup sequence in `main` (src/main.rs lines 75–136):
either the process exits at the configuration-validation step, or every
configured rule gets an engine task spawned for it. -/
inductive StartupResult where
  | exitedValidationError
  | started (tcpEngines : List TcpRule) (udpEngines : List UdpRule)
deriving DecidableEq, Repr

/-- The startup pipeline of `main`: `config.validate()` followed by
`std::process::exit(1)` on error, otherwise one forwarder task is spawned
per configured TCP and UDP rule. -/
def mainStartup (cfg : Config) : StartupResult :=
  match cfg.validate with
  | none => .exitedValidationError
  | some _ => .started (cfg.tcp.getD []) (cfg.udp.getD [])

/-! ## The UDP session table (src/udp_forwarder.rs)

`Arc<RwLock<HashMap<SocketAddr, UdpSession>>>` is modelled as an
association list with at most one entry per key (the map functions below
preserve this).  A section of code executed while holding the write lock
is modelled as one atomic step of the state machine. `Instant` is a `Nat`
timestamp; socket handles are identified by the `Nat` id the model
assigned when the socket was bound.
-/

/-- `UdpSession` from src/udp_forwarder.rs: the dedicated outbound socket
(by id) and the last-activity timestamp. -/
structure UdpSession where
  target_socket : Nat
  last_activity : Nat
deriving DecidableEq, Repr

/-- The session table: client source address to session. -/
abbrev SessionTable := List (SocketAddr × UdpSession)

/-- `HashMap::get` / `get_mut`: the binding for a client address, if any. -/
def SessionTable.find? (t : SessionTable) (k : SocketAddr) : Option UdpSession :=
  match t with
  | [] => none
  | (k', v) :: rest => if k' = k then some v else SessionTable.find? rest k

/-- `HashMap::contains_key`. -/
def SessionTable.containsKey (t : SessionTable) (k : SocketAddr) : Bool :=
  (t.find? k).isSome

/-- `HashMap::remove`: drops the binding for `k` (a no-op when absent). -/
def SessionTable.erase : SessionTable → SocketAddr → SessionTable
  | [], _ => []
  | (k', v) :: rest, k =>
    if k' = k then SessionTable.erase rest k
    else (k', v) :: SessionTable.erase rest k

/-- `HashMap::insert`: binds `k` to `v`, replacing any previous binding. -/
def SessionTable.insert (t : SessionTable) (k : SocketAddr) (v : UdpSession) :
    SessionTable :=
  (k, v) :: t.erase k

/-- Number of entries the table holds for one key (at most 1 for tables
built by `insert`/`erase`; the atomicity claim is about this count). -/
def SessionTable.countKey : SessionTable → SocketAddr → Nat
  | [], _ => 0
  | (k', _) :: rest, k =>
    if k' = k then SessionTable.countKey rest k + 1
    else SessionTable.countKey rest k

/-! ## The multiplexer state and the get-or-create critical section -/

/-- State of one UDP rule's multiplexer: the shared session table plus the
model's accounting of outbound sockets: `nextSocketId` numbers the next
`UdpSocket::bind("0.0.0.0:0")`, and `createdSockets` records every socket
ever bound (in order), so "exactly one socket created" is expressible. -/
structure MuxState where
  table : SessionTable
  nextSocketId : Nat
  createdSockets : List Nat
deriving DecidableEq, Repr

/-- The get-or-create critical section of `handle_udp_packet`
(src/udp_forwarder.rs lines 102–141), executed under
`sessions.write().await` and hence atomic with respect to every other
table access: on a hit the last-activity is refreshed and the existing
session returned; on a miss a fresh outbound socket is bound, a new
session inserted, and the response-relay task spawned (spawning mutates
nothing here).  `now` is the `Instant::now()` of this step. -/
def getOrCreate (st : MuxState) (client : SocketAddr) (now : Nat) :
    MuxState × UdpSession :=
  match st.table.find? client with
  | some s =>
    let s' : UdpSession := { s with last_activity := now }
    ({ st with table := st.table.insert client s' }, s')
  | none =>
    let sock := st.nextSocketId
    let s : UdpSession := { target_socket := sock, last_activity := now }
    ({ table := st.table.insert client s,
       nextSocketId := sock + 1,
       createdSockets := st.createdSockets ++ [sock] }, s)

/-- Serialization of `n` concurrent `handle_udp_packet` tasks for the same
client address by the write lock: the lock admits the critical sections
one at a time, so any concurrent arrival order is some sequence of atomic
`getOrCreate` steps.  `nows` lists each task's `Instant::now()`. -/
def runArrivals (st : MuxState) (client : SocketAddr) : List Nat → MuxState
  | [] => st
  | now :: rest => runArrivals (getOrCreate st client now).1 client rest

/-! ## The full datagram handler (src/udp_forwarder.rs lines 91–153) -/

/-- Result of `session.target_socket.send_to(&data, target_addr)`. -/
inductive SendRes where
  | ok
  | err
deriving DecidableEq, Repr

/-- `handle_udp_packet`: parse the target address, run the get-or-create
critical section, then forward the datagram to the target on the
session's outbound socket; a send failure removes the session (and is not
reported upward: the function still returns `Ok(())`).  `bindOk` is the
outcome of `UdpSocket::bind("0.0.0.0:0")` on the miss path; its failure
propagates as the handler's error (`none`).  The returned value pairs the
final state with the handler's `Result<()>`. -/
def handle_udp_packet (rule : UdpRule) (st : MuxState) (client : SocketAddr)
    (now : Nat) (bindOk : Bool) (sendRes : SendRes) :
    MuxState × Option Unit :=
  match rule.target_socket_addr with
  | none => (st, none)
  | some _ =>
    match st.table.find? client with
    | some s =>
      let s' : UdpSession := { s with last_activity := now }
      let st' : MuxState := { st with table := st.table.insert client s' }
      match sendRes with
      | .ok => (st', some ())
      | .err => ({ st' with table := st'.table.erase client }, some ())
    | none =>
      if bindOk then
        let st' := (getOrCreate st client now).1
        match sendRes with
        | .ok => (st', some ())
        | .err => ({ st' with table := st'.table.erase client }, some ())
      else
        (st, none)

/-! ## The response-relay task (src/udp_forwarder.rs lines 155–201) -/

/-- `recv` / `recv_from` into the fixed `vec![0u8; buffer_size]` buffer
followed by `&buffer[..len]`: the OS delivers at most `buffer_size` bytes
of the datagram, the rest is discarded. -/
def recvIntoBuffer (buffer_size : Nat) (datagram : List Nat) : List Nat :=
  datagram.take buffer_size

/-- One outcome of `timeout(Duration::from_secs(60), target_socket.recv(..))`:
a datagram arrived (with the subsequent `send_to` outcome), the receive
errored, or the 60-second wait timed out. -/
inductive RelayEv where
  | recvOk (datagram : List Nat) (sendOk : Bool)
  | recvErr
  | waitTimedOut
deriving DecidableEq, Repr

/-- What one iteration of the `forward_responses` loop did: the table it
left behind, the datagram it sent to the client (if any), and whether the
loop continues. -/
structure RelayStepOut where
  table : SessionTable
  sent : Option (SocketAddr × List Nat)
  keepLooping : Bool
deriving DecidableEq, Repr

/-- One iteration of the `forward_responses` loop.  On `recvOk`: refresh
the session's last-activity under the write lock, breaking without
forwarding when the entry is gone, otherwise `send_to` the received bytes
to the original client via the rule's shared listening socket, breaking
on send failure.  On `recvErr`: break.  On a 60-second wait-timeout:
break exactly when the entry is gone. -/
def forward_responses_step (buffer_size : Nat) (table : SessionTable)
    (client : SocketAddr) (now : Nat) : RelayEv → RelayStepOut
  | .recvOk datagram sendOk =>
    match table.find? client with
    | some s =>
      let t' := table.insert client { s with last_activity := now }
      { table := t', sent := some (client, recvIntoBuffer buffer_size datagram),
        keepLooping := sendOk }
    | none => { table := table, sent := none, keepLooping := false }
  | .recvErr => { table := table, sent := none, keepLooping := false }
  | .waitTimedOut =>
    { table := table, sent := none, keepLooping := table.containsKey client }

/-- State of a `forward_responses` run over finitely many events:
`terminated` means the loop broke and the trailing
`sessions.write().await.remove(&client_addr)` ran; `waiting` means the
events ran out with the task still blocked in `recv`. -/
inductive RelayRun where
  | terminated (table : SessionTable) (sent : List (SocketAddr × List Nat))
  | waiting (table : SessionTable) (sent : List (SocketAddr × List Nat))
deriving DecidableEq, Repr

/-- The `forward_responses` loop over a finite prefix of events (each with
its `Instant::now()`), followed on every break path by the removal of the
task's own session entry. -/
def forward_responses_run (buffer_size : Nat) (client : SocketAddr)
    (table : SessionTable) : List (Nat × RelayEv) → RelayRun
  | [] => .waiting table []
  | (now, ev) :: rest =>
    let o := forward_responses_step buffer_size table client now ev
    if o.keepLooping then
      match forward_responses_run buffer_size client o.table rest with
      | .terminated t s => .terminated t (o.sent.toList ++ s)
      | .waiting t s => .waiting t (o.sent.toList ++ s)
    else
      .terminated (o.table.erase client) o.sent.toList

/-! ## The sweep task (src/udp_forwarder.rs lines 203–226) -/

/-- Scan phase of `cleanup_expired_sessions`, under the read lock: collect
every client whose `now.duration_since(last_activity)` strictly exceeds
the timeout. -/
def collectExpired (now timeout_duration : Nat) (table : SessionTable) :
    List SocketAddr :=
  (table.filter (fun e => now - e.2.last_activity > timeout_duration)).map
    (fun e => e.1)

/-- Removal phase, under the write lock: remove each collected client,
with no re-check of its last-activity. -/
def removeKeys (keys : List SocketAddr) (table : SessionTable) : SessionTable :=
  keys.foldl (fun t k => t.erase k) table

/-- `cleanup_expired_sessions`: scan (read lock), then, when anything was
collected, batch-remove (write lock).  The two phases are separate lock
acquisitions; `cleanupInterleaved` below exposes the gap between them. -/
def cleanup_expired_sessions (now timeout_duration : Nat)
    (table : SessionTable) : SessionTable :=
  let expired := collectExpired now timeout_duration table
  if expired.isEmpty then table else removeKeys expired table

/-- The last-activity refresh performed by `handle_udp_packet` or
`forward_responses` when the entry exists (a no-op otherwise). -/
def refreshActivity (table : SessionTable) (client : SocketAddr)
    (now : Nat) : SessionTable :=
  match table.find? client with
  | some s => table.insert client { s with last_activity := now }
  | none => table

/-- The sweep with a concurrent refresh interleaved between its read-locked
scan and its write-locked removal: the collected keys come from the old
table, the removal runs on the refreshed one. -/
def cleanupInterleaved (now timeout_duration : Nat) (table : SessionTable)
    (client : SocketAddr) (refreshTime : Nat) : SessionTable :=
  let expired := collectExpired now timeout_duration table
  let table' := refreshActivity table client refreshTime
  if expired.isEmpty then table' else removeKeys expired table'

/-! ## The TCP byte pump and relay (src/tcp_forwarder.rs lines 48–117) -/

/-- One `read(&mut buffer)` outcome in a pump loop: `readOk data writeOk`
is `Ok(n)` delivering `data` (with the outcome of the subsequent
`write_all(&buffer[..n])`; `data = []` is the `Ok(0)` orderly close, for
which no write happens), and `readErr` is `Err(_)`. -/
inductive TcpReadEv where
  | readOk (data : List Nat) (writeOk : Bool)
  | readErr
deriving DecidableEq, Repr

/-- Why a pump loop broke. -/
inductive PumpReason where
  | eofClose
  | readFail
  | writeFail
deriving DecidableEq, Repr

/-- One byte-pump loop (`client_to_target` or `target_to_client`): read;
break on `Ok(0)`; on `Ok(n)` write the chunk in full to the peer, breaking
on write error; break on read error.  Returns the bytes successfully
written, in order, and the break reason (`none` when the events ran out
with the pump still blocked in `read`). -/
def pumpRun : List TcpReadEv → List Nat × Option PumpReason
  | [] => ([], none)
  | .readErr :: _ => ([], some .readFail)
  | .readOk data writeOk :: rest =>
    if data = [] then ([], some .eofClose)
    else if writeOk then
      let (w, r) := pumpRun rest
      (data ++ w, r)
    else ([], some .writeFail)

/-- Final state of the relay task when `tokio::select!` completes: both
owned streams are dropped (closed) as `handle_tcp_client` returns. -/
structure TcpRelayExit where
  clientClosed : Bool
  targetClosed : Bool
deriving DecidableEq, Repr

/-- The `tokio::select!` over the two pumps: the relay task exits as soon
as either pump breaks, abandoning the other direction; on exit both
streams go out of scope and are closed.  `none` means neither pump has
terminated on its events yet and the task is still relaying. -/
def handle_tcp_relay (clientEvs targetEvs : List TcpReadEv) :
    Option TcpRelayExit :=
  if (pumpRun clientEvs).2.isSome ∨ (pumpRun targetEvs).2.isSome then
    some { clientClosed := true, targetClosed := true }
  else
    none

/-! ## The per-rule `start` entry points -/

/-- Outcome of the initial `bind` (TCP listener or UDP socket). -/
inductive BindRes where
  | ok
  | fail
deriving DecidableEq, Repr

/-- One `listener.accept()` outcome in the TCP accept loop. -/
inductive AcceptEv where
  | conn
  | acceptErr
deriving DecidableEq, Repr

/-- Accepted connections in an event prefix (each spawns a relay task). -/
def countConns : List AcceptEv → Nat
  | [] => 0
  | .conn :: rest => countConns rest + 1
  | .acceptErr :: rest => countConns rest

/-- Result of running `start` against a finite prefix of loop events:
either it returned an error, or it is still in its infinite accept /
receive loop having spawned `spawnedTasks` handler tasks. -/
inductive StartOutcome where
  | errored
  | looping (spawnedTasks : Nat)
deriving DecidableEq, Repr

/-- `TcpForwarder` from src/tcp_forwarder.rs. -/
structure TcpForwarder where
  rule : TcpRule
  buffer_size : Nat
deriving Repr

/-- `TcpForwarder::start`: parse the bind address (`?`), bind (`?`), parse
the target address for the log line (`?`, after the bind), then loop
forever: `Ok` accepts spawn a handler, `Err`s are logged and the loop
continues; no arm of the loop returns. -/
def TcpForwarder.start (f : TcpForwarder) (bindRes : BindRes)
    (evs : List AcceptEv) : StartOutcome :=
  match f.rule.bind_socket_addr with
  | none => .errored
  | some _ =>
    match bindRes with
    | .fail => .errored
    | .ok =>
      match f.rule.target_socket_addr with
      | none => .errored
      | some _ => .looping (countConns evs)

/-- One `socket.recv_from(&mut buffer)` outcome in the UDP main loop. -/
inductive UdpRecvEv where
  | datagram (data : List Nat) (client : SocketAddr)
  | recvFail
deriving DecidableEq, Repr

/-- Received datagrams in an event prefix (each spawns a handler task). -/
def countDatagrams : List UdpRecvEv → Nat
  | [] => 0
  | .datagram _ _ :: rest => countDatagrams rest + 1
  | .recvFail :: rest => countDatagrams rest

/-- `UdpForwarder` from src/udp_forwarder.rs. -/
structure UdpForwarder where
  rule : UdpRule
  buffer_size : Nat
deriving Repr

/-- `UdpForwarder::start`: parse both addresses (`?`, before the bind),
bind (`?`), spawn the sweep task, then loop forever: `Ok` receives spawn
`handle_udp_packet`, `Err`s are logged and the loop continues; no arm of
the loop returns. -/
def UdpForwarder.start (f : UdpForwarder) (bindRes : BindRes)
    (evs : List UdpRecvEv) : StartOutcome :=
  match f.rule.bind_socket_addr with
  | none => .errored
  | some _ =>
    match f.rule.target_socket_addr with
    | none => .errored
    | some _ =>
      match bindRes with
      | .fail => .errored
      | .ok => .looping (countDatagrams evs)

/-! ## Theorems

First, the map laws of the association-list session table.
-/

theorem SessionTable.find?_insert (t : SessionTable) (k : SocketAddr)
    (v : UdpSession) : (t.insert k v).find? k = some v := by
  simp [SessionTable.insert, SessionTable.find?]

theorem SessionTable.find?_erase (t : SessionTable) (k : SocketAddr) :
    (t.erase k).find? k = none := by
  induction t with
  | nil => simp [SessionTable.erase, SessionTable.find?]
  | cons e rest ih =>
    obtain ⟨k', v⟩ := e
    by_cases h : k' = k
    · simp [SessionTable.erase, h, ih]
    · simp [SessionTable.erase, SessionTable.find?, h, ih]

theorem SessionTable.find?_erase_ne (t : SessionTable) (k k' : SocketAddr)
    (h : k' ≠ k) :
    (t.erase k).find? k' = t.find? k' := by
  induction t with
  | nil => simp [SessionTable.erase]
  | cons e rest ih =>
    obtain ⟨k₀, v₀⟩ := e
    by_cases h0 : k₀ = k
    · subst h0
      simp [SessionTable.erase, SessionTable.find?, Ne.symm h, ih]
    · by_cases h1 : k₀ = k'
      · subst h1
        simp [SessionTable.erase, SessionTable.find?, h0, h]
      · simp [SessionTable.erase, SessionTable.find?, h0, h1, ih]

theorem SessionTable.erase_of_find?_none (t : SessionTable) (k : SocketAddr)
    (h : t.find? k = none) : t.erase k = t := by
  induction t with
  | nil => simp [SessionTable.erase]
  | cons e rest ih =>
    obtain ⟨k', v⟩ := e
    by_cases h0 : k' = k
    · simp [SessionTable.find?, h0] at h
    · simp [SessionTable.find?, h0] at h
      simp [SessionTable.erase, h0, ih h]

theorem SessionTable.countKey_erase (t : SessionTable) (k : SocketAddr) :
    (t.erase k).countKey k = 0 := by
  induction t with
  | nil => simp [SessionTable.erase, SessionTable.countKey]
  | cons e rest ih =>
    obtain ⟨k', v⟩ := e
    by_cases h : k' = k
    · simp [SessionTable.erase, h, ih]
    · simp [SessionTable.erase, SessionTable.countKey, h, ih]

theorem SessionTable.countKey_insert (t : SessionTable) (k : SocketAddr)
    (v : UdpSession) : (t.insert k v).countKey k = 1 := by
  simp [SessionTable.insert, SessionTable.countKey,
    SessionTable.countKey_erase]

theorem SessionTable.countKey_eq_zero_of_find?_none (t : SessionTable)
    (k : SocketAddr) (h : t.find? k = none) : t.countKey k = 0 := by
  induction t with
  | nil => simp [SessionTable.countKey]
  | cons e rest ih =>
    obtain ⟨k', v⟩ := e
    by_cases h0 : k' = k
    · simp [SessionTable.find?, h0] at h
    · simp [SessionTable.find?, h0] at h
      simp [SessionTable.countKey, h0, ih h]

/-! ## C1: atomicity of get-or-create for one client address -/

theorem runArrivals_hit_invariant (client : SocketAddr) (nows : List Nat) :
    ∀ st : MuxState, (st.table.find? client).isSome →
      st.table.countKey client = 1 →
      ((runArrivals st client nows).table.find? client).isSome ∧
      (runArrivals st client nows).table.countKey client = 1 ∧
      (runArrivals st client nows).createdSockets = st.createdSockets := by
  induction nows with
  | nil => intro st h1 h2; exact ⟨h1, h2, rfl⟩
  | cons now rest ih =>
    intro st h1 h2
    obtain ⟨s, hs⟩ := Option.isSome_iff_exists.mp h1
    have hstep : (getOrCreate st client now).1 =
        { st with table := st.table.insert client { s with last_activity := now } } := by
      simp [getOrCreate, hs]
    have hfind := SessionTable.find?_insert st.table client
      { s with last_activity := now }
    have hcount := SessionTable.countKey_insert st.table client
      { s with last_activity := now }
    have := ih (getOrCreate st client now).1
      (by rw [hstep]; simp [hfind]) (by rw [hstep]; simpa using hcount)
    refine ⟨this.1, this.2.1, ?_⟩
    have hrun : runArrivals st client (now :: rest) =
        runArrivals (getOrCreate st client now).1 client rest := rfl
    rw [hrun, this.2.2, hstep]

/-- Claim C1: for a previously-unknown client address, any number of
concurrent `handle_udp_packet` arrivals — serialized by the write lock
into atomic `getOrCreate` steps in some order — create exactly one
session entry and bind exactly one outbound socket; moreover after every
serialization prefix the table holds at most one entry for that client
and at most one socket has been created for it. -/
theorem C1_get_or_create_atomic (st : MuxState) (client : SocketAddr)
    (nows : List Nat) (habsent : st.table.find? client = none)
    (hne : nows ≠ []) :
    (runArrivals st client nows).table.countKey client = 1 ∧
    (runArrivals st client nows).createdSockets.length =
      st.createdSockets.length + 1 ∧
    (∀ pre suf : List Nat, nows = pre ++ suf →
      (runArrivals st client pre).table.countKey client ≤ 1 ∧
      (runArrivals st client pre).createdSockets.length ≤
        st.createdSockets.length + 1) := by
  have hcons : ∀ (now : Nat) (rest : List Nat),
      (runArrivals st client (now :: rest)).table.countKey client = 1 ∧
      (runArrivals st client (now :: rest)).createdSockets.length =
        st.createdSockets.length + 1 := by
    intro now rest
    have hstep : (getOrCreate st client now).1 =
        { table := st.table.insert client
            { target_socket := st.nextSocketId, last_activity := now },
          nextSocketId := st.nextSocketId + 1,
          createdSockets := st.createdSockets ++ [st.nextSocketId] } := by
      simp [getOrCreate, habsent]
    have hinv := runArrivals_hit_invariant client rest (getOrCreate st client now).1
      (by rw [hstep]
          simp [SessionTable.find?_insert])
      (by rw [hstep]
          simpa using SessionTable.countKey_insert st.table client
            { target_socket := st.nextSocketId, last_activity := now })
    have hrun : runArrivals st client (now :: rest) =
        runArrivals (getOrCreate st client now).1 client rest := rfl
    refine ⟨by rw [hrun]; exact hinv.2.1, ?_⟩
    rw [hrun, hinv.2.2, hstep]
    simp
  obtain ⟨now, rest, hsplit⟩ := List.exists_cons_of_ne_nil hne
  subst hsplit
  refine ⟨(hcons now rest).1, (hcons now rest).2, ?_⟩
  intro pre suf _
  cases pre with
  | nil =>
    refine ⟨?_, by simp [runArrivals]⟩
    simp [runArrivals,
      SessionTable.countKey_eq_zero_of_find?_none st.table client habsent]
  | cons p0 pre' =>
    exact ⟨le_of_eq (hcons p0 pre').1, le_of_eq (hcons p0 pre').2⟩

/-- Witness for C1 at a concrete state: the empty table, the client
127.0.0.1:40000, and two concurrent arrivals timestamped 5 and 7. -/
theorem C1_get_or_create_atomic_witness :
    (MuxState.mk [] 0 []).table.find? ⟨⟨127, 0, 0, 1⟩, 40000⟩ = none ∧
    ([5, 7] : List Nat) ≠ [] ∧
    ((runArrivals ⟨[], 0, []⟩ ⟨⟨127, 0, 0, 1⟩, 40000⟩
        [5, 7]).table.countKey ⟨⟨127, 0, 0, 1⟩, 40000⟩ = 1 ∧
      (runArrivals ⟨[], 0, []⟩ ⟨⟨127, 0, 0, 1⟩, 40000⟩
          [5, 7]).createdSockets.length =
        (MuxState.mk [] 0 []).createdSockets.length + 1 ∧
      (∀ pre suf : List Nat, [5, 7] = pre ++ suf →
        (runArrivals ⟨[], 0, []⟩ ⟨⟨127, 0, 0, 1⟩, 40000⟩
            pre).table.countKey ⟨⟨127, 0, 0, 1⟩, 40000⟩ ≤ 1 ∧
        (runArrivals ⟨[], 0, []⟩ ⟨⟨127, 0, 0, 1⟩, 40000⟩
            pre).createdSockets.length ≤
          (MuxState.mk [] 0 []).createdSockets.length + 1)) :=
  ⟨by decide, by decide,
    C1_get_or_create_atomic ⟨[], 0, []⟩ ⟨⟨127, 0, 0, 1⟩, 40000⟩ [5, 7]
      (by decide) (by decide)⟩

/-! ## C2 and C8: the TCP byte pump -/

/-- Events at which a pump loop breaks: a zero-length read (orderly
close), a read error, or a write error on the chunk just read. -/
def isBreakEv : TcpReadEv → Bool
  | .readErr => true
  | .readOk data writeOk => data.isEmpty || !writeOk

theorem pumpRun_chunk_step (d : List Nat) (rest : List TcpReadEv)
    (hd : d ≠ []) :
    pumpRun (.readOk d true :: rest) =
      (d ++ (pumpRun rest).1, (pumpRun rest).2) := by
  cases hpr : pumpRun rest with
  | mk w r => simp [pumpRun, hd, hpr]

theorem pumpRun_of_clean_chunks (chunks : List (List Nat))
    (h : ∀ c ∈ chunks, c ≠ []) :
    pumpRun (chunks.map (fun c => TcpReadEv.readOk c true) ++
        [TcpReadEv.readOk [] true]) =
      (chunks.flatten, some PumpReason.eofClose) := by
  induction chunks with
  | nil => simp [pumpRun]
  | cons c cs ih =>
    have hc : c ≠ [] := h c (List.mem_cons_self c cs)
    have ih' := ih (fun x hx => h x (List.mem_cons_of_mem c hx))
    rw [List.map_cons, List.cons_append,
      pumpRun_chunk_step c _ hc, ih']
    simp

/-- Claim C2: a pump loop delivers exactly the bytes it reads, in order:
a client stream read as the chunks `chunks` (each a nonempty read) and
then a zero-length read is written to the peer as the concatenation of
those chunks, for any number of chunks including none (an immediate
zero-length read terminates the pump having written nothing); and each
chunk is written in full before the next read happens. -/
theorem C2_tcp_pump_byte_exact (chunks : List (List Nat))
    (h : ∀ c ∈ chunks, c ≠ []) :
    pumpRun (chunks.map (fun c => TcpReadEv.readOk c true) ++
        [TcpReadEv.readOk [] true]) =
      (chunks.flatten, some PumpReason.eofClose) ∧
    (∀ (d : List Nat) (rest : List TcpReadEv), d ≠ [] →
      pumpRun (.readOk d true :: rest) =
        (d ++ (pumpRun rest).1, (pumpRun rest).2)) :=
  ⟨pumpRun_of_clean_chunks chunks h, pumpRun_chunk_step⟩

/-- Witness for C2 at the concrete chunk sequence [[1,2],[3]] (and, via
the second conjunct, the concrete chunk [7] before further events). -/
theorem C2_tcp_pump_byte_exact_witness :
    (∀ c ∈ [[1, 2], [3]], c ≠ ([] : List Nat)) ∧
    (pumpRun ([[1, 2], [3]].map (fun c => TcpReadEv.readOk c true) ++
        [TcpReadEv.readOk [] true]) =
      ([1, 2, 3], some PumpReason.eofClose) ∧
    (∀ (d : List Nat) (rest : List TcpReadEv), d ≠ [] →
      pumpRun (.readOk d true :: rest) =
        (d ++ (pumpRun rest).1, (pumpRun rest).2))) :=
  ⟨by decide, C2_tcp_pump_byte_exact [[1, 2], [3]] (by decide)⟩

theorem pumpRun_isSome_iff_any_break (evs : List TcpReadEv) :
    (pumpRun evs).2.isSome = evs.any isBreakEv := by
  induction evs with
  | nil => simp [pumpRun]
  | cons ev rest ih =>
    cases ev with
    | readErr => simp [pumpRun, isBreakEv]
    | readOk data writeOk =>
      by_cases hd : data = []
      · simp [pumpRun, isBreakEv, hd]
      · cases writeOk with
        | false => simp [pumpRun, isBreakEv, hd]
        | true =>
          cases hpr : pumpRun rest with
          | mk w r =>
            have : r.isSome = rest.any isBreakEv := by rw [← ih, hpr]
            simp [pumpRun, isBreakEv, hd, hpr, this]

/-- Claim C8: each byte-pump terminates exactly when one of its events is
a zero-length read, a read error, or a write error (and not before the
events run out otherwise); the relay task exits exactly when either pump
has terminated, abandoning the other; and whenever it exits, both the
client-facing and the target-facing stream are closed. -/
theorem C8_tcp_relay_terminates (clientEvs targetEvs : List TcpReadEv) :
    (pumpRun clientEvs).2.isSome = clientEvs.any isBreakEv ∧
    (pumpRun targetEvs).2.isSome = targetEvs.any isBreakEv ∧
    (handle_tcp_relay clientEvs targetEvs).isSome =
      (clientEvs.any isBreakEv || targetEvs.any isBreakEv) ∧
    (handle_tcp_relay clientEvs targetEvs = none ∨
      handle_tcp_relay clientEvs targetEvs =
        some { clientClosed := true, targetClosed := true }) := by
  refine ⟨pumpRun_isSome_iff_any_break clientEvs,
    pumpRun_isSome_iff_any_break targetEvs, ?_, ?_⟩
  · rw [handle_tcp_relay]
    by_cases h : ((pumpRun clientEvs).2.isSome = true ∨
        (pumpRun targetEvs).2.isSome = true)
    · rw [if_pos h]
      rcases h with h | h
      · rw [pumpRun_isSome_iff_any_break] at h
        simp [h]
      · rw [pumpRun_isSome_iff_any_break] at h
        simp [h]
    · rw [if_neg h]
      push_neg at h
      obtain ⟨h1, h2⟩ := h
      rw [pumpRun_isSome_iff_any_break] at h1 h2
      simp only [Bool.not_eq_true] at h1 h2
      simp [h1, h2]
  · rw [handle_tcp_relay]
    by_cases h : ((pumpRun clientEvs).2.isSome = true ∨
        (pumpRun targetEvs).2.isSome = true)
    · right; simp [h]
    · left; simp [h]

/-! ## C3: an invalid rule and the startup pipeline -/

theorem validateTcpRules_none_of_mem (rs : List TcpRule) (r : TcpRule)
    (hmem : r ∈ rs) (hbad : r.validate = none) :
    validateTcpRules rs = none := by
  induction rs with
  | nil => cases hmem
  | cons a rest ih =>
    rcases List.mem_cons.mp hmem with h | h
    · subst h
      simp [validateTcpRules, hbad]
    · cases ha : a.validate with
      | none => simp [validateTcpRules, ha]
      | some _ => simp [validateTcpRules, ha, ih h]

theorem validateUdpRules_none_of_mem (rs : List UdpRule) (r : UdpRule)
    (hmem : r ∈ rs) (hbad : r.validate = none) :
    validateUdpRules rs = none := by
  induction rs with
  | nil => cases hmem
  | cons a rest ih =>
    rcases List.mem_cons.mp hmem with h | h
    · subst h
      simp [validateUdpRules, hbad]
    · cases ha : a.validate with
      | none => simp [validateUdpRules, ha]
      | some _ => simp [validateUdpRules, ha, ih h]

/-- A valid TCP rule taken from the repository's default configuration:
bind 127.0.0.1:8080, target 127.0.0.1:80. -/
def exGoodTcpRule : TcpRule :=
  { bind_addr := "127.0.0.1", bind_port := 8080,
    target_addr := "127.0.0.1", target_port := 80,
    name := some "web_proxy_example" }

/-- A TCP rule whose bind address does not parse to an IP. -/
def exBadTcpRule : TcpRule :=
  { bind_addr := "not-an-ip", bind_port := 9999,
    target_addr := "127.0.0.1", target_port := 80,
    name := none }

/-- A configuration holding one valid rule and one invalid sibling. -/
def exMixedConfig : Config :=
  { tcp := some [exGoodTcpRule, exBadTcpRule], udp := none }

/-- Counterexample to claim C3 as stated: in a configuration with the
valid rule `exGoodTcpRule` and the invalid sibling `exBadTcpRule`,
`main` exits at `config.validate()` before starting any engine, so the
valid sibling's engine does not start — contradicting "every other valid
rule's engine still starts". -/
theorem C3_sibling_rules_counterexample :
    exBadTcpRule.validate = none ∧
    exGoodTcpRule.validate = some () ∧
    mainStartup exMixedConfig = StartupResult.exitedValidationError := by
  refine ⟨by decide, by decide, ?_⟩
  have : exMixedConfig.validate = none := by decide
  simp [mainStartup, this]

/-- Claim C3 as amended: a rule whose bind or target address string does
not parse does keep its own engine from starting and no socket from being
opened, but not by skipping just that rule — `Config::validate` fails and
`main` exits before starting anything, so no sibling engine starts
either. -/
theorem C3_invalid_rule_aborts_startup (cfg : Config)
    (h : (∃ r ∈ cfg.tcp.getD [], TcpRule.validate r = none) ∨
      (∃ r ∈ cfg.udp.getD [], UdpRule.validate r = none)) :
    cfg.validate = none ∧
    mainStartup cfg = StartupResult.exitedValidationError := by
  have hnone : cfg.validate = none := by
    rcases h with ⟨r, hmem, hbad⟩ | ⟨r, hmem, hbad⟩
    · have := validateTcpRules_none_of_mem _ r hmem hbad
      simp [Config.validate, this]
    · have := validateUdpRules_none_of_mem _ r hmem hbad
      cases ht : validateTcpRules (cfg.tcp.getD []) with
      | none => simp [Config.validate, ht]
      | some _ => simp [Config.validate, ht, this]
  exact ⟨hnone, by simp [mainStartup, hnone]⟩

/-- Witness for the amended C3 at the concrete mixed configuration. -/
theorem C3_invalid_rule_aborts_startup_witness :
    ((∃ r ∈ exMixedConfig.tcp.getD [], TcpRule.validate r = none) ∨
      (∃ r ∈ exMixedConfig.udp.getD [], UdpRule.validate r = none)) ∧
    (exMixedConfig.validate = none ∧
      mainStartup exMixedConfig = StartupResult.exitedValidationError) :=
  ⟨Or.inl ⟨exBadTcpRule, by decide, by decide⟩,
    C3_invalid_rule_aborts_startup exMixedConfig
      (Or.inl ⟨exBadTcpRule, by decide, by decide⟩)⟩

/-! ## C4: `start` errors exactly on a failed initial bind -/

/-- Claim C4: for valid rules, the TCP and the UDP `start` return an
error exactly when the initial bind fails, and after a successful bind
they never return: every finite prefix of accept / receive events —
failures included, which are logged and looped past — leaves them in the
loop, having spawned one handler per successful accept / receive. -/
theorem C4_start_error_iff_bind_fails (ft : TcpForwarder)
    (fu : UdpForwarder) (bt bu : BindRes) (tevs : List AcceptEv)
    (uevs : List UdpRecvEv) (hvt : ft.rule.validate = some ())
    (hvu : fu.rule.validate = some ()) :
    (ft.start bt tevs = StartOutcome.errored ↔ bt = BindRes.fail) ∧
    (bt = BindRes.ok →
      ft.start bt tevs = StartOutcome.looping (countConns tevs)) ∧
    (fu.start bu uevs = StartOutcome.errored ↔ bu = BindRes.fail) ∧
    (bu = BindRes.ok →
      fu.start bu uevs = StartOutcome.looping (countDatagrams uevs)) := by
  cases hb : ft.rule.bind_socket_addr with
  | none => simp [TcpRule.validate, hb] at hvt
  | some ba =>
  cases ht : ft.rule.target_socket_addr with
  | none => simp [TcpRule.validate, hb, ht] at hvt
  | some ta =>
  cases hub : fu.rule.bind_socket_addr with
  | none => simp [UdpRule.validate, hub] at hvu
  | some uba =>
  cases hut : fu.rule.target_socket_addr with
  | none => simp [UdpRule.validate, hub, hut] at hvu
  | some uta =>
  refine ⟨?_, ?_, ?_, ?_⟩
  · cases bt <;> simp [TcpForwarder.start, hb, ht]
  · intro hok; subst hok; simp [TcpForwarder.start, hb, ht]
  · cases bu <;> simp [UdpForwarder.start, hub, hut]
  · intro hok; subst hok; simp [UdpForwarder.start, hub, hut]

/-- Witness for C4: the default configuration's TCP web-proxy rule with a
failed bind, the default DNS UDP rule with a successful bind, and a
concrete event prefix containing both successes and transient
failures. -/
theorem C4_start_error_iff_bind_fails_witness :
    (TcpForwarder.mk exGoodTcpRule 8192).rule.validate = some () ∧
    (UdpForwarder.mk
        ⟨"127.0.0.1", 5353, "8.8.8.8", 53, some "dns_proxy_example",
          some 30⟩ 8192).rule.validate = some () ∧
    (((TcpForwarder.mk exGoodTcpRule 8192).start BindRes.fail
        [AcceptEv.conn, AcceptEv.acceptErr] = StartOutcome.errored ↔
      BindRes.fail = BindRes.fail) ∧
    (BindRes.fail = BindRes.ok →
      (TcpForwarder.mk exGoodTcpRule 8192).start BindRes.fail
          [AcceptEv.conn, AcceptEv.acceptErr] =
        StartOutcome.looping
          (countConns [AcceptEv.conn, AcceptEv.acceptErr])) ∧
    ((UdpForwarder.mk
          ⟨"127.0.0.1", 5353, "8.8.8.8", 53, some "dns_proxy_example",
            some 30⟩ 8192).start BindRes.ok
        [UdpRecvEv.recvFail, UdpRecvEv.datagram [1] ⟨⟨10, 0, 0, 1⟩, 53⟩] =
        StartOutcome.errored ↔ BindRes.ok = BindRes.fail) ∧
    (BindRes.ok = BindRes.ok →
      (UdpForwarder.mk
          ⟨"127.0.0.1", 5353, "8.8.8.8", 53, some "dns_proxy_example",
            some 30⟩ 8192).start BindRes.ok
          [UdpRecvEv.recvFail, UdpRecvEv.datagram [1] ⟨⟨10, 0, 0, 1⟩, 53⟩] =
        StartOutcome.looping
          (countDatagrams
            [UdpRecvEv.recvFail,
              UdpRecvEv.datagram [1] ⟨⟨10, 0, 0, 1⟩, 53⟩]))) :=
  ⟨by decide, by decide,
    C4_start_error_iff_bind_fails (TcpForwarder.mk exGoodTcpRule 8192)
      (UdpForwarder.mk
        ⟨"127.0.0.1", 5353, "8.8.8.8", 53, some "dns_proxy_example",
          some 30⟩ 8192)
      BindRes.fail BindRes.ok
      [AcceptEv.conn, AcceptEv.acceptErr]
      [UdpRecvEv.recvFail, UdpRecvEv.datagram [1] ⟨⟨10, 0, 0, 1⟩, 53⟩]
      (by decide) (by decide)⟩

/-! ## C5: the response-relay task's loop and termination behaviour -/

theorem forward_responses_run_terminated_erased (B : Nat)
    (client : SocketAddr) :
    ∀ (evs : List (Nat × RelayEv)) (table t : SessionTable)
      (sent : List (SocketAddr × List Nat)),
      forward_responses_run B client table evs =
        RelayRun.terminated t sent →
      t.find? client = none := by
  intro evs
  induction evs with
  | nil =>
    intro table t sent h
    simp [forward_responses_run] at h
  | cons p rest ih =>
    obtain ⟨now, ev⟩ := p
    intro table t sent h
    rw [forward_responses_run] at h
    by_cases hkeep :
        (forward_responses_step B table client now ev).keepLooping = true
    · rw [if_pos hkeep] at h
      cases hrun : forward_responses_run B client
          (forward_responses_step B table client now ev).table rest with
      | terminated t' s' =>
        rw [hrun] at h
        cases h
        exact ih _ _ _ hrun
      | waiting t' s' =>
        rw [hrun] at h
        cases h
    · rw [if_neg hkeep] at h
      cases h
      exact SessionTable.find?_erase _ client

/-- Claim C5: each iteration of `forward_responses` behaves as specified —
on a datagram from the target it refreshes last-activity, aborting
without forwarding when the session entry is gone, and otherwise forwards
the received bytes to the original client address via the rule's shared
listening socket, breaking on send failure; on a hard socket error it
breaks; on a 60-second wait-timeout it continues exactly when the entry
still exists; every terminated run has removed its own session entry; and
removing an already-absent key is a no-op. -/
theorem C5_forward_responses_spec (B : Nat) (table : SessionTable)
    (client : SocketAddr) (now : Nat) :
    (∀ (s : UdpSession) (datagram : List Nat) (sendOk : Bool),
      table.find? client = some s →
      forward_responses_step B table client now (.recvOk datagram sendOk) =
        { table := table.insert client { s with last_activity := now },
          sent := some (client, recvIntoBuffer B datagram),
          keepLooping := sendOk }) ∧
    (∀ (datagram : List Nat) (sendOk : Bool),
      table.find? client = none →
      forward_responses_step B table client now (.recvOk datagram sendOk) =
        { table := table, sent := none, keepLooping := false }) ∧
    (forward_responses_step B table client now .recvErr =
      { table := table, sent := none, keepLooping := false }) ∧
    (forward_responses_step B table client now .waitTimedOut =
      { table := table, sent := none,
        keepLooping := table.containsKey client }) ∧
    (∀ (evs : List (Nat × RelayEv)) (t : SessionTable)
      (sent : List (SocketAddr × List Nat)),
      forward_responses_run B client table evs =
        RelayRun.terminated t sent →
      t.find? client = none) ∧
    (∀ t : SessionTable, t.find? client = none → t.erase client = t) := by
  refine ⟨?_, ?_, rfl, rfl, ?_, ?_⟩
  · intro s datagram sendOk h
    simp [forward_responses_step, h]
  · intro datagram sendOk h
    simp [forward_responses_step, h]
  · intro evs t sent h
    exact forward_responses_run_terminated_erased B client evs table t sent h
  · intro t h
    exact SessionTable.erase_of_find?_none t client h

/-- The client address used by the concrete UDP witnesses. -/
def exClient : SocketAddr := ⟨⟨127, 0, 0, 1⟩, 40000⟩

/-- A session bound to outbound socket 3, last active at time 10. -/
def exSession : UdpSession := ⟨3, 10⟩

/-- Witness for C5 with buffer size 4, the one-session table, a
5-byte datagram from the target at time 20, and a run ending in a hard
socket error. -/
theorem C5_forward_responses_spec_witness :
    SessionTable.find? [(exClient, exSession)] exClient =
      some exSession ∧
    forward_responses_step 4 [(exClient, exSession)] exClient 20
        (.recvOk [9, 8, 7, 6, 5] true) =
      { table := SessionTable.insert [(exClient, exSession)] exClient
          { exSession with last_activity := 20 },
        sent := some (exClient, recvIntoBuffer 4 [9, 8, 7, 6, 5]),
        keepLooping := true } ∧
    (∀ (t : SessionTable) (sent : List (SocketAddr × List Nat)),
      forward_responses_run 4 exClient [(exClient, exSession)]
          [(20, RelayEv.recvErr)] = RelayRun.terminated t sent →
      SessionTable.find? t exClient = none) :=
  ⟨by decide,
    (C5_forward_responses_spec 4 [(exClient, exSession)] exClient 20).1
      exSession [9, 8, 7, 6, 5] true (by decide),
    fun t sent h =>
      (C5_forward_responses_spec 4 [(exClient, exSession)] exClient
        20).2.2.2.2.1 [(20, RelayEv.recvErr)] t sent h⟩

/-! ## C6 and C9: the idle sweep -/

theorem SessionTable.mem_of_find?_eq_some (t : SessionTable)
    (k : SocketAddr) (s : UdpSession) (h : t.find? k = some s) :
    (k, s) ∈ t := by
  induction t with
  | nil => simp [SessionTable.find?] at h
  | cons e rest ih =>
    obtain ⟨k', v⟩ := e
    by_cases h0 : k' = k
    · subst h0
      simp [SessionTable.find?] at h
      simp [h]
    · simp [SessionTable.find?, h0] at h
      exact List.mem_cons_of_mem _ (ih h)

theorem SessionTable.find?_isSome_of_mem (t : SessionTable)
    (k : SocketAddr) (s : UdpSession) (h : (k, s) ∈ t) :
    (t.find? k).isSome := by
  induction t with
  | nil => cases h
  | cons e rest ih =>
    obtain ⟨k', v⟩ := e
    rcases List.mem_cons.mp h with h0 | h0
    · cases h0
      simp [SessionTable.find?]
    · by_cases h1 : k' = k
      · simp [SessionTable.find?, h1]
      · simp [SessionTable.find?, h1]
        exact ih h0

theorem SessionTable.find?_eq_of_mem_nodup (t : SessionTable)
    (k : SocketAddr) (s : UdpSession)
    (hnodup : (t.map Prod.fst).Nodup) (h : (k, s) ∈ t) :
    t.find? k = some s := by
  induction t with
  | nil => cases h
  | cons e rest ih =>
    obtain ⟨k', v⟩ := e
    rw [List.map_cons, List.nodup_cons] at hnodup
    rcases List.mem_cons.mp h with h0 | h0
    · cases h0
      simp [SessionTable.find?]
    · by_cases h1 : k' = k
      · subst h1
        exact absurd (List.mem_map_of_mem Prod.fst h0) hnodup.1
      · simp [SessionTable.find?, h1]
        exact ih hnodup.2 h0

theorem SessionTable.not_mem_erase_self (t : SessionTable)
    (k : SocketAddr) (s : UdpSession) : (k, s) ∉ t.erase k := by
  induction t with
  | nil => simp [SessionTable.erase]
  | cons e rest ih =>
    obtain ⟨k', v⟩ := e
    by_cases h0 : k' = k
    · simpa [SessionTable.erase, h0] using ih
    · intro hmem
      simp [SessionTable.erase, h0] at hmem
      rcases hmem with ⟨h1, _⟩ | h1
      · exact h0 h1.symm
      · exact ih h1

theorem find?_removeKeys (keys : List SocketAddr) :
    ∀ (t : SessionTable) (k : SocketAddr),
      SessionTable.find? (removeKeys keys t) k =
        if k ∈ keys then none else t.find? k := by
  induction keys with
  | nil => intro t k; simp [removeKeys]
  | cons k0 rest ih =>
    intro t k
    have hstep : removeKeys (k0 :: rest) t = removeKeys rest (t.erase k0) :=
      rfl
    rw [hstep, ih]
    by_cases h0 : k = k0
    · subst h0
      by_cases h1 : k ∈ rest
      · simp [h1]
      · simp [h1, SessionTable.find?_erase]
    · by_cases h1 : k ∈ rest
      · simp [h0, h1]
      · simp [h0, h1, SessionTable.find?_erase_ne t k0 k h0]

theorem mem_collectExpired_iff (now tmo : Nat) (t : SessionTable)
    (k : SocketAddr) :
    k ∈ collectExpired now tmo t ↔
      ∃ s, (k, s) ∈ t ∧ now - s.last_activity > tmo := by
  constructor
  · intro h
    rcases List.mem_map.mp h with ⟨⟨k', s⟩, hmem, hk⟩
    cases hk
    rcases List.mem_filter.mp hmem with ⟨hin, hcond⟩
    exact ⟨s, hin, by simpa using hcond⟩
  · rintro ⟨s, hin, hcond⟩
    exact List.mem_map.mpr ⟨(k, s),
      List.mem_filter.mpr ⟨hin, by simpa using hcond⟩, rfl⟩

/-- Claim C6: a sweep tick removes exactly the sessions whose idle time
`now - last_activity` strictly exceeds the rule's idle timeout — an entry
survives the sweep if and only if it was in the table with idle time at
most the timeout; and the timeout used is the rule's configured value,
defaulting to 30 seconds when unset. -/
theorem C6_sweep_collects_strictly_idle (now tmo : Nat)
    (table : SessionTable) (hnodup : (table.map Prod.fst).Nodup) :
    (∀ (k : SocketAddr) (s : UdpSession),
      SessionTable.find? (cleanup_expired_sessions now tmo table) k =
          some s ↔
        table.find? k = some s ∧ now - s.last_activity ≤ tmo) ∧
    (∀ r : UdpRule, r.timeout_opt = none → r.timeout_seconds = 30) ∧
    (∀ (r : UdpRule) (n : Nat), r.timeout_opt = some n →
      r.timeout_seconds = n) := by
  refine ⟨?_, ?_, ?_⟩
  · intro k s
    by_cases hemp : (collectExpired now tmo table).isEmpty = true
    · have hclean : cleanup_expired_sessions now tmo table = table := by
        simp [cleanup_expired_sessions, hemp]
      rw [hclean]
      constructor
      · intro h
        refine ⟨h, ?_⟩
        by_contra hgt
        push_neg at hgt
        have hm : k ∈ collectExpired now tmo table :=
          (mem_collectExpired_iff now tmo table k).mpr
            ⟨s, SessionTable.mem_of_find?_eq_some table k s h, hgt⟩
        rw [List.isEmpty_iff] at hemp
        simp [hemp] at hm
      · exact fun h => h.1
    · have hclean : cleanup_expired_sessions now tmo table =
          removeKeys (collectExpired now tmo table) table := by
        simp [cleanup_expired_sessions, hemp]
      rw [hclean, find?_removeKeys]
      by_cases hk : k ∈ collectExpired now tmo table
      · rw [if_pos hk]
        constructor
        · intro h; cases h
        · rintro ⟨hf, hle⟩
          rcases (mem_collectExpired_iff now tmo table k).mp hk with
            ⟨s', hmem, hgt⟩
          have heq := SessionTable.find?_eq_of_mem_nodup table k s'
            hnodup hmem
          rw [hf] at heq
          have hss : s = s' := by injection heq
          subst hss
          exact absurd hgt (not_lt.mpr hle)
      · rw [if_neg hk]
        constructor
        · intro h
          refine ⟨h, ?_⟩
          by_contra hgt
          push_neg at hgt
          exact hk ((mem_collectExpired_iff now tmo table k).mpr
            ⟨s, SessionTable.mem_of_find?_eq_some table k s h, hgt⟩)
        · exact fun h => h.1
  · intro r h
    simp [UdpRule.timeout_seconds, h]
  · intro r n h
    simp [UdpRule.timeout_seconds, h]

/-- Witness for C6: the one-session table (last activity 10) swept at
time 50 with timeout 30. -/
theorem C6_sweep_collects_strictly_idle_witness :
    (([(exClient, exSession)] : SessionTable).map Prod.fst).Nodup ∧
    ((∀ (k : SocketAddr) (s : UdpSession),
      SessionTable.find?
          (cleanup_expired_sessions 50 30 [(exClient, exSession)]) k =
          some s ↔
        SessionTable.find? [(exClient, exSession)] k = some s ∧
          50 - s.last_activity ≤ 30) ∧
    (∀ r : UdpRule, r.timeout_opt = none → r.timeout_seconds = 30) ∧
    (∀ (r : UdpRule) (n : Nat), r.timeout_opt = some n →
      r.timeout_seconds = n)) :=
  ⟨by decide,
    C6_sweep_collects_strictly_idle 50 30 [(exClient, exSession)]
      (by decide)⟩

/-- Claim C9: the sweep's removal batch does not recheck last-activity: a
client collected in the scan phase is removed even when its last-activity
was refreshed between the two phases, and the refreshed entry would not
have been collected by a fresh scan (it is no longer idle at removal
time). -/
theorem C9_sweep_removes_refreshed (now tmo refreshTime now2 : Nat)
    (table : SessionTable) (k : SocketAddr)
    (hk : k ∈ collectExpired now tmo table)
    (hfresh : now2 - refreshTime ≤ tmo) :
    SessionTable.find?
        (cleanupInterleaved now tmo table k refreshTime) k = none ∧
    k ∉ collectExpired now2 tmo (refreshActivity table k refreshTime) := by
  constructor
  · have hne : collectExpired now tmo table ≠ [] := List.ne_nil_of_mem hk
    have hemp : (collectExpired now tmo table).isEmpty = false := by
      simpa [List.isEmpty_iff] using hne
    have h1 : cleanupInterleaved now tmo table k refreshTime =
        removeKeys (collectExpired now tmo table)
          (refreshActivity table k refreshTime) := by
      simp [cleanupInterleaved, hemp]
    rw [h1, find?_removeKeys, if_pos hk]
  · intro hmem
    rcases (mem_collectExpired_iff now2 tmo _ k).mp hmem with
      ⟨s', hmem', hgt⟩
    cases hft : table.find? k with
    | none =>
      rw [refreshActivity, hft] at hmem'
      have := SessionTable.find?_isSome_of_mem table k s' hmem'
      rw [hft] at this
      cases this
    | some s =>
      rw [refreshActivity, hft] at hmem'
      simp only [SessionTable.insert] at hmem'
      rcases List.mem_cons.mp hmem' with h1 | h1
      · have h2 : s' = { s with last_activity := refreshTime } :=
          congrArg Prod.snd h1
        rw [h2] at hgt
        exact absurd hgt (not_lt.mpr hfresh)
      · exact SessionTable.not_mem_erase_self table k s' h1

/-- Witness for C9: the one-session table (last activity 10), scanned at
time 50 with timeout 30, refreshed at time 49 between scan and removal,
and re-examined at time 50. -/
theorem C9_sweep_removes_refreshed_witness :
    exClient ∈ collectExpired 50 30 [(exClient, exSession)] ∧
    (50 : Nat) - 49 ≤ 30 ∧
    (SessionTable.find?
        (cleanupInterleaved 50 30 [(exClient, exSession)] exClient 49)
        exClient = none ∧
    exClient ∉ collectExpired 50 30
      (refreshActivity [(exClient, exSession)] exClient 49)) :=
  ⟨by decide, by decide,
    C9_sweep_removes_refreshed 50 30 49 50 [(exClient, exSession)]
      exClient (by decide) (by decide)⟩

/-! ## C7: a failed send to the target is session-fatal -/

/-- Claim C7: when the send of a client datagram to the target fails,
`handle_udp_packet` removes the session entry immediately and still
returns `Ok(())`; the next datagram from the same client address then
takes the miss path, creating a fresh session whose newly bound outbound
socket differs from the failed session's socket. -/
theorem C7_send_failure_removes_session (rule : UdpRule) (st : MuxState)
    (client : SocketAddr) (now now2 : Nat) (s : UdpSession)
    (htarget : (rule.target_socket_addr).isSome)
    (hs : st.table.find? client = some s)
    (hfresh : s.target_socket < st.nextSocketId) :
    SessionTable.find?
        (handle_udp_packet rule st client now true SendRes.err).1.table
        client = none ∧
    (handle_udp_packet rule st client now true SendRes.err).2 =
      some () ∧
    (handle_udp_packet rule
        (handle_udp_packet rule st client now true SendRes.err).1 client
        now2 true SendRes.ok).1.createdSockets =
      st.createdSockets ++ [st.nextSocketId] ∧
    SessionTable.find?
        (handle_udp_packet rule
          (handle_udp_packet rule st client now true SendRes.err).1 client
          now2 true SendRes.ok).1.table client =
      some ⟨st.nextSocketId, now2⟩ ∧
    st.nextSocketId ≠ s.target_socket ∧
    (handle_udp_packet rule
        (handle_udp_packet rule st client now true SendRes.err).1 client
        now2 true SendRes.ok).2 = some () := by
  obtain ⟨ta, hta⟩ := Option.isSome_iff_exists.mp htarget
  have hout : handle_udp_packet rule st client now true SendRes.err =
      ({ st with table := (st.table.insert client
          { s with last_activity := now }).erase client }, some ()) := by
    simp [handle_udp_packet, hta, hs]
  have hgone : ((st.table.insert client
      { s with last_activity := now }).erase client).find? client = none :=
    SessionTable.find?_erase _ client
  have hsecond : handle_udp_packet rule
      (handle_udp_packet rule st client now true SendRes.err).1 client
      now2 true SendRes.ok =
      ({ table := ((st.table.insert client
            { s with last_activity := now }).erase client).insert client
            { target_socket := st.nextSocketId, last_activity := now2 },
         nextSocketId := st.nextSocketId + 1,
         createdSockets := st.createdSockets ++ [st.nextSocketId] },
        some ()) := by
    rw [hout]
    simp [handle_udp_packet, hta, hgone, getOrCreate]
  refine ⟨by rw [hout]; exact hgone, by rw [hout], ?_, ?_,
    Nat.ne_of_gt hfresh, by rw [hsecond]⟩
  · rw [hsecond]
  · rw [hsecond]
    exact SessionTable.find?_insert _ client _

/-- The DNS example rule of the default configuration, used as a valid
UDP rule by the concrete witnesses. -/
def exUdpRule : UdpRule :=
  { bind_addr := "127.0.0.1", bind_port := 5353,
    target_addr := "8.8.8.8", target_port := 53,
    name := some "dns_proxy_example", timeout_opt := some 30 }

/-- Witness for C7: the DNS rule, a one-session state (socket 3, next id
4), a failed send at time 20 and a retry datagram at time 21. -/
theorem C7_send_failure_removes_session_witness :
    ((exUdpRule.target_socket_addr).isSome ∧
      SessionTable.find? [(exClient, exSession)] exClient =
        some exSession ∧
      exSession.target_socket < 4) ∧
    (SessionTable.find?
        (handle_udp_packet exUdpRule ⟨[(exClient, exSession)], 4, [3]⟩
          exClient 20 true SendRes.err).1.table exClient = none ∧
    (handle_udp_packet exUdpRule ⟨[(exClient, exSession)], 4, [3]⟩
        exClient 20 true SendRes.err).2 = some () ∧
    (handle_udp_packet exUdpRule
        (handle_udp_packet exUdpRule ⟨[(exClient, exSession)], 4, [3]⟩
          exClient 20 true SendRes.err).1 exClient 21 true
        SendRes.ok).1.createdSockets = [3] ++ [4] ∧
    SessionTable.find?
        (handle_udp_packet exUdpRule
          (handle_udp_packet exUdpRule ⟨[(exClient, exSession)], 4, [3]⟩
            exClient 20 true SendRes.err).1 exClient 21 true
          SendRes.ok).1.table exClient = some ⟨4, 21⟩ ∧
    (4 : Nat) ≠ exSession.target_socket ∧
    (handle_udp_packet exUdpRule
        (handle_udp_packet exUdpRule ⟨[(exClient, exSession)], 4, [3]⟩
          exClient 20 true SendRes.err).1 exClient 21 true
        SendRes.ok).2 = some ()) :=
  ⟨⟨by decide, by decide, by decide⟩,
    C7_send_failure_removes_session exUdpRule
      ⟨[(exClient, exSession)], 4, [3]⟩ exClient 20 21 exSession
      (by decide) (by decide) (by decide)⟩

/-! ## C10: fixed receive buffers truncate long datagrams -/

/-- The `data` handed to the spawned `handle_udp_packet` task by the UDP
main loop (src/udp_forwarder.rs lines 58–64): `recv_from` fills at most
`buffer_size` bytes and `buffer[..len].to_vec()` copies exactly those. -/
def udpLoopHandlerData (f : UdpForwarder) : UdpRecvEv → Option (List Nat)
  | .datagram d _ => some (recvIntoBuffer f.buffer_size d)
  | .recvFail => none

/-- Claim C10: both UDP receive paths read into a fixed buffer of
`buffer_size` bytes, so a datagram of length at most `buffer_size` is
passed on with identical payload bytes, while a longer one is silently
truncated to its first `buffer_size` bytes — in the main loop's hand-off
to `handle_udp_packet` and in the response relay's forward to the
client alike. -/
theorem C10_udp_buffer_truncation (f : UdpForwarder) (d : List Nat)
    (table : SessionTable) (client : SocketAddr) (now : Nat)
    (s : UdpSession) (hs : table.find? client = some s) :
    (d.length ≤ f.buffer_size → recvIntoBuffer f.buffer_size d = d) ∧
    (f.buffer_size < d.length →
      recvIntoBuffer f.buffer_size d = d.take f.buffer_size ∧
      (recvIntoBuffer f.buffer_size d).length = f.buffer_size) ∧
    udpLoopHandlerData f (.datagram d client) =
      some (recvIntoBuffer f.buffer_size d) ∧
    (forward_responses_step f.buffer_size table client now
        (.recvOk d true)).sent =
      some (client, recvIntoBuffer f.buffer_size d) := by
  refine ⟨?_, ?_, rfl, ?_⟩
  · intro hle
    simpa [recvIntoBuffer] using List.take_of_length_le hle
  · intro hlt
    refine ⟨rfl, ?_⟩
    simp [recvIntoBuffer]
    omega
  · simp [forward_responses_step, hs]

/-- Witness for C10: buffer size 4, a 6-byte datagram, and the
one-session table. -/
theorem C10_udp_buffer_truncation_witness :
    SessionTable.find? [(exClient, exSession)] exClient =
      some exSession ∧
    (([1, 2, 3, 4, 5, 6].length ≤ 4 →
      recvIntoBuffer 4 [1, 2, 3, 4, 5, 6] = [1, 2, 3, 4, 5, 6]) ∧
    (4 < [1, 2, 3, 4, 5, 6].length →
      recvIntoBuffer 4 [1, 2, 3, 4, 5, 6] =
        [1, 2, 3, 4, 5, 6].take 4 ∧
      (recvIntoBuffer 4 [1, 2, 3, 4, 5, 6]).length = 4) ∧
    udpLoopHandlerData (UdpForwarder.mk exUdpRule 4)
        (.datagram [1, 2, 3, 4, 5, 6] exClient) =
      some (recvIntoBuffer 4 [1, 2, 3, 4, 5, 6]) ∧
    (forward_responses_step 4 [(exClient, exSession)] exClient 20
        (.recvOk [1, 2, 3, 4, 5, 6] true)).sent =
      some (exClient, recvIntoBuffer 4 [1, 2, 3, 4, 5, 6])) :=
  ⟨by decide,
    C10_udp_buffer_truncation (UdpForwarder.mk exUdpRule 4)
      [1, 2, 3, 4, 5, 6] [(exClient, exSession)] exClient 20 exSession
      (by decide)⟩
